import Mathlib

/-!
# Verification of the probe-rs C API (probe_rs_lib.h)

The repository ships the C header `src/probe-rs-lib/include/probe_rs_lib.h`,
which declares the session, core-control, memory/register, breakpoint, flash
and chip-database entry points together with their documented contracts
(return conventions, status encodings, string-buffer semantics).  The
implementations behind these declarations are not part of `src/`, so the
behavioural definitions below are modelled from the specification, faithful
to its words and to the contracts documented in the header.  Signatures,
encodings and numeric conventions (handle zero reserved, core status codes
0/1/2, `size_t` returns for string queries, the programmer-type enumeration
codes 0..9) are taken directly from the header.

Modelling conventions: machine integers are `Nat` (bytes reduced `% 256`,
register values reduced `% 2^w`, the 64-bit address space bounded by
`2^64`); C `int32_t` statuses are `Int` (0 success, negative = error code);
C output buffers are `Option Nat` (`none` = NULL pointer, `some n` = a
buffer of `n` bytes) and the bytes a call stores into the buffer are
returned as a `List Char`; the target's memory and register banks are
functions, updated pointwise.
-/

namespace ProbeRs

/-- Error kinds of the library, as enumerated in the spec's error-handling
design (section 7). -/
inductive PrError where
  | notFound
  | invalidSession
  | invalidCore
  | unknownChip
  | unsupportedProtocol
  | timeout
  | invalidState
  | accessFault
  | unknownRegister
  | unsupported
  | outOfUnits
  | verifyFailed
  | flashError
  | transportError
  deriving DecidableEq, Repr

/-- Modelled from the spec: every failure is surfaced to C callers as a
negative signed status code (spec section 6, "Status/result codes"); the
concrete numbering is implementation-defined, so we fix one injective
negative coding. -/
def PrError.code : PrError → Int
  | .notFound            => -1
  | .invalidSession      => -2
  | .invalidCore         => -3
  | .unknownChip         => -4
  | .unsupportedProtocol => -5
  | .timeout             => -6
  | .invalidState        => -7
  | .accessFault         => -8
  | .unknownRegister     => -9
  | .unsupported         => -10
  | .outOfUnits          => -11
  | .verifyFailed        => -12
  | .flashError          => -13
  | .transportError      => -14

/-- The human-readable diagnostic recorded in the process-wide last-error
slot when an operation fails (spec section 7). -/
def PrError.message : PrError → String
  | .notFound            => "NotFound"
  | .invalidSession      => "InvalidSession"
  | .invalidCore         => "InvalidCore"
  | .unknownChip         => "UnknownChip"
  | .unsupportedProtocol => "UnsupportedProtocol"
  | .timeout             => "Timeout"
  | .invalidState        => "InvalidState"
  | .accessFault         => "AccessFault"
  | .unknownRegister     => "UnknownRegister"
  | .unsupported         => "Unsupported"
  | .outOfUnits          => "OutOfUnits"
  | .verifyFailed        => "VerifyFailed"
  | .flashError          => "FlashError"
  | .transportError      => "TransportError"

/-- Execution status of a core: the header documents
`0=Unknown, 1=Halted, 2=Running` for `pr_core_status` (lines 81–85). -/
inductive CoreStatus where
  | unknown
  | halted
  | running
  deriving DecidableEq, Repr

/-- The integer encoding of a core status used by `pr_core_status`
(header lines 81–85). -/
def CoreStatus.toCode : CoreStatus → Int
  | .unknown => 0
  | .halted  => 1
  | .running => 2

/-- A register descriptor: id (16-bit), bit width, display name, and whether
it is read-only (spec section 3, "Register"; section 4.4). -/
structure RegisterInfo where
  id : Nat
  bitWidth : Nat
  name : String
  readOnly : Bool
  deriving DecidableEq, Repr

/-- A chip-catalog entry: manufacturer name, model name, core count, the
fixed register file and the JSON spec document (spec section 3,
"Chip catalog entry"; header lines 182–204). -/
structure ChipEntry where
  manufacturer : String
  model : String
  coreCount : Nat
  registers : List RegisterInfo
  specsJson : String
  deriving DecidableEq, Repr

/-- Modelled from the spec: the chip database is a read-only catalog queried
by exact name match (spec section 4.2: "`chip` must resolve via the Chip
Database (exact name match)"). -/
def findChip (db : List ChipEntry) (name : String) : Option ChipEntry :=
  db.find? (fun c => c.model == name)

/-- Per-core mutable state: execution status, register values (indexed by
register id), byte-addressed memory, allocated hardware-breakpoint
addresses and the hardware comparator-unit capacity (spec section 3,
"Core"/"Breakpoint"). -/
structure CoreState where
  status : CoreStatus
  regs : Nat → Nat
  mem : Nat → Nat
  breakpoints : List Nat
  bpUnits : Nat

/-- A live session: the resolved chip entry and its cores, index-addressed
with the count fixed at open time (spec section 3, "Session"). -/
structure SessionState where
  chip : ChipEntry
  coreCount : Nat
  core : Nat → CoreState

/-- Modelled from the spec: the library's global state — the arena of open
sessions addressed by non-zero opaque handles, the next fresh handle, and
the process-wide single-slot last-error diagnostic (spec sections 3, 5
and 9). -/
structure LibState where
  sessions : Nat → Option SessionState
  nextHandle : Nat
  lastError : String

/-- The initial library state; handle numbering starts at 1 so that handle
zero stays reserved for "no session" (spec section 6, "Handle model"). -/
def LibState.init : LibState :=
  { sessions := fun _ => none, nextHandle := 1, lastError := "" }

/-- Well-formedness of a library state: the next fresh handle is non-zero
and no handle at or above it is allocated. -/
def LibState.WF (st : LibState) : Prop :=
  1 ≤ st.nextHandle ∧ ∀ k, st.nextHandle ≤ k → st.sessions k = none

/-- Record a failure: the process-wide last-error slot is overwritten by
the failing call (spec sections 5 and 7). -/
def setErr (st : LibState) (e : PrError) : LibState :=
  { st with lastError := e.message }

/-- The core a `(session, core_index)` pair addresses, when valid. -/
def LibState.coreAt (st : LibState) (h i : Nat) : Option CoreState :=
  match st.sessions h with
  | none => none
  | some s => if i < s.coreCount then some (s.core i) else none

/-- Replace the state of core `i` of session `h` (pointwise update of the
session arena and of the session's core bank). -/
def LibState.setCore (st : LibState) (h i : Nat) (c : CoreState) : LibState :=
  match st.sessions h with
  | none => st
  | some s =>
      { st with sessions := fun k =>
          if k = h then
            some { s with core := fun j => if j = i then c else s.core j }
          else st.sessions k }

/-- Modelled from the spec: a freshly opened session exposes the chip's core
count, every core starting in the `Unknown` execution state (the initial
state before the first status query, spec section 4.3) with no hardware
breakpoints allocated. -/
def freshSession (c : ChipEntry) (units : Nat) : SessionState :=
  { chip := c
  , coreCount := c.coreCount
  , core := fun _ =>
      { status := .unknown, regs := fun _ => 0, mem := fun _ => 0
      , breakpoints := [], bpUnits := units } }

/-- Modelled from the spec: `pr_session_open_auto` (header lines 61–69).
The chip name must resolve in the database by exact match; an unresolved
name fails with `UnknownChip`, returns the reserved handle 0 and allocates
nothing; on success a fresh non-zero handle is returned (header: "Returns a
non-zero session handle on success").  Probe auto-selection, protocol
negotiation and the transport binding are external collaborators and are
not modelled; `units` is the per-core hardware breakpoint capacity reported
by the attached target. -/
def pr_session_open_auto (db : List ChipEntry) (st : LibState)
    (chip : String) (units : Nat) : Nat × LibState :=
  match findChip db chip with
  | none => (0, setErr st .unknownChip)
  | some c =>
      (st.nextHandle,
       { st with
           sessions := fun k =>
             if k = st.nextHandle then some (freshSession c units)
             else st.sessions k
           nextHandle := st.nextHandle + 1 })

/-- Modelled from the spec: `pr_session_open_with_probe` binds a specific
probe by selector but resolves the chip name exactly like the automatic
variant (spec section 4.2); the probe binding itself is an external
collaborator, so the selector does not influence chip resolution. -/
def pr_session_open_with_probe (db : List ChipEntry) (st : LibState)
    (_selector : String) (chip : String) (units : Nat) : Nat × LibState :=
  pr_session_open_auto db st chip units

/-! ## Core control and core status -/

/-- Modelled from the spec: `pr_core_step` (header lines 71–79, spec
section 4.3).  `step()` is legal only from `Halted`: it executes exactly
one instruction — the hardware effect of that instruction on registers and
memory is external and passed as `exec` — and the core returns to `Halted`;
from any other state the call fails with `InvalidState`.  An unknown handle
fails with `InvalidSession`, an out-of-range core index with
`InvalidCore`. -/
def pr_core_step (exec : CoreState → CoreState) (st : LibState)
    (h i : Nat) : Int × LibState :=
  match st.sessions h with
  | none => (PrError.invalidSession.code, setErr st .invalidSession)
  | some s =>
      if i < s.coreCount then
        let c := s.core i
        if c.status = .halted then
          (0, st.setCore h i { exec c with status := .halted })
        else
          (PrError.invalidState.code, setErr st .invalidState)
      else (PrError.invalidCore.code, setErr st .invalidCore)

/-- Modelled from the spec: `pr_core_status` (header lines 81–85).
A pure query: returns `0=Unknown, 1=Halted, 2=Running`, or a negative
code on an invalid session or core index; it does not mutate. -/
def pr_core_status (st : LibState) (h i : Nat) : Int × LibState :=
  match st.sessions h with
  | none => (PrError.invalidSession.code, setErr st .invalidSession)
  | some s =>
      if i < s.coreCount then ((s.core i).status.toCode, st)
      else (PrError.invalidCore.code, setErr st .invalidCore)

/-! ## Memory access (byte API) -/

/-- The size of the 64-bit address space (`uint64_t` addresses in the
header). -/
def addressSpace : Nat := 2 ^ 64

/-- Read `n` consecutive bytes starting at `a`. -/
def readBytes (m : Nat → Nat) (a n : Nat) : List Nat :=
  (List.range n).map (fun j => m (a + j))

/-- Store a buffer of bytes at `a`; each stored cell holds the byte value
(`uint8_t`, hence reduced `% 256`). -/
def writeBytes (m : Nat → Nat) (a : Nat) (buf : List Nat) : Nat → Nat :=
  fun x => if a ≤ x ∧ x < a + buf.length then buf.getD (x - a) 0 % 256 else m x

/-- Modelled from the spec: `pr_read_8` (header lines 87–94, spec section
4.4).  Returns the status and the bytes stored into the caller's buffer.
`address + length` must not overflow the 64-bit address space; length 0 is
a no-op success. -/
def pr_read_8 (st : LibState) (h i : Nat) (a n : Nat) :
    Int × List Nat × LibState :=
  match st.sessions h with
  | none => (PrError.invalidSession.code, [], setErr st .invalidSession)
  | some s =>
      if i < s.coreCount then
        if a + n ≤ addressSpace then
          (0, readBytes (s.core i).mem a n, st)
        else (PrError.accessFault.code, [], setErr st .accessFault)
      else (PrError.invalidCore.code, [], setErr st .invalidCore)

/-- Modelled from the spec: `pr_write_8` (header lines 87–94, spec section
4.4).  Writes the buffer to the core's memory; `address + length` must not
overflow the 64-bit address space; length 0 is a no-op success. -/
def pr_write_8 (st : LibState) (h i : Nat) (a : Nat) (buf : List Nat) :
    Int × LibState :=
  match st.sessions h with
  | none => (PrError.invalidSession.code, setErr st .invalidSession)
  | some s =>
      if i < s.coreCount then
        if a + buf.length ≤ addressSpace then
          let c := s.core i
          (0, st.setCore h i { c with mem := writeBytes c.mem a buf })
        else (PrError.accessFault.code, setErr st .accessFault)
      else (PrError.invalidCore.code, setErr st .invalidCore)

/-! ## Register access -/

/-- Look up a register descriptor by id in a register file (spec section
4.4: `read_reg`/`write_reg` address registers by id, not by enumeration
index). -/
def findReg (rs : List RegisterInfo) (id : Nat) : Option RegisterInfo :=
  rs.find? (fun r => r.id == id)

/-- Modelled from the spec: `pr_write_reg_u64` (header lines 96–105, spec
section 4.4).  An id not in the file fails with `UnknownRegister`; a
read-only register fails with `Unsupported`; otherwise the value is
truncated to the register's bit width (low bits taken) and stored. -/
def pr_write_reg_u64 (st : LibState) (h i : Nat) (id v : Nat) :
    Int × LibState :=
  match st.sessions h with
  | none => (PrError.invalidSession.code, setErr st .invalidSession)
  | some s =>
      if i < s.coreCount then
        match findReg s.chip.registers id with
        | none => (PrError.unknownRegister.code, setErr st .unknownRegister)
        | some r =>
            if r.readOnly then
              (PrError.unsupported.code, setErr st .unsupported)
            else
              let c := s.core i
              (0, st.setCore h i
                    { c with regs := fun j =>
                        if j = id then v % 2 ^ r.bitWidth else c.regs j })
      else (PrError.invalidCore.code, setErr st .invalidCore)

/-- Modelled from the spec: `pr_read_reg_u64` (header lines 96–105, spec
section 4.4).  Returns the status and the value stored through
`out_value`; values narrower than 64 bits are zero-extended, i.e. the
`w`-bit register content occupies the low bits of the `uint64_t`. -/
def pr_read_reg_u64 (st : LibState) (h i : Nat) (id : Nat) :
    Int × Nat × LibState :=
  match st.sessions h with
  | none => (PrError.invalidSession.code, 0, setErr st .invalidSession)
  | some s =>
      if i < s.coreCount then
        match findReg s.chip.registers id with
        | none => (PrError.unknownRegister.code, 0, setErr st .unknownRegister)
        | some r => (0, (s.core i).regs id % 2 ^ r.bitWidth, st)
      else (PrError.invalidCore.code, 0, setErr st .invalidCore)

/-! ## Hardware breakpoints -/

/-- Modelled from the spec: `pr_set_hw_breakpoint` (header lines 107–113,
spec section 4.5).  Allocates one free comparator unit bound to `address`;
fails with `OutOfUnits` if none is free; succeeds idempotently, allocating
nothing, if `address` already has a unit. -/
def pr_set_hw_breakpoint (st : LibState) (h i : Nat) (address : Nat) :
    Int × LibState :=
  match st.sessions h with
  | none => (PrError.invalidSession.code, setErr st .invalidSession)
  | some s =>
      if i < s.coreCount then
        let c := s.core i
        if address ∈ c.breakpoints then (0, st)
        else if c.breakpoints.length < c.bpUnits then
          (0, st.setCore h i { c with breakpoints := address :: c.breakpoints })
        else (PrError.outOfUnits.code, setErr st .outOfUnits)
      else (PrError.invalidCore.code, setErr st .invalidCore)

/-- Modelled from the spec: `pr_clear_hw_breakpoint` (header lines 107–113,
spec section 4.5).  Releases the unit bound to `address`; clearing an
unallocated address is a no-op success. -/
def pr_clear_hw_breakpoint (st : LibState) (h i : Nat) (address : Nat) :
    Int × LibState :=
  match st.sessions h with
  | none => (PrError.invalidSession.code, setErr st .invalidSession)
  | some s =>
      if i < s.coreCount then
        let c := s.core i
        if address ∈ c.breakpoints then
          (0, st.setCore h i
                { c with breakpoints := c.breakpoints.erase address })
        else (0, st)
      else (PrError.invalidCore.code, setErr st .invalidCore)

/-! ## Flash programming pipeline -/

/-- One contiguous (address, bytes) range of a parsed firmware image
(spec section 4.6, step 2). -/
structure Range where
  addr : Nat
  data : List Nat
  deriving DecidableEq, Repr

/-- Modelled from the spec: the preverify filter (spec section 4.6, step
3): ranges whose target content already matches the image are excluded
from programming. -/
def preverifyFilter (m : Nat → Nat) (preverify : Bool) (ranges : List Range) :
    List Range :=
  if preverify then
    ranges.filter (fun r => ¬ readBytes m r.addr r.data.length = r.data)
  else ranges

/-- Modelled from the spec: the erase phase (spec section 4.6, step 4).
A mass erase sets the whole device to the erased byte `0xFF`; otherwise
only the ranges to be programmed are erased (sector granularity is an
external target property and is abstracted to the ranges themselves). -/
def erasePhase (m : Nat → Nat) (chipErase : Bool) (toProgram : List Range) :
    Nat → Nat :=
  if chipErase then fun _ => 0xFF
  else toProgram.foldl
    (fun acc r => writeBytes acc r.addr (List.replicate r.data.length 0xFF)) m

/-- The program phase (spec section 4.6, step 5): write each remaining
range. -/
def programPhase (m : Nat → Nat) (toProgram : List Range) : Nat → Nat :=
  toProgram.foldl (fun acc r => writeBytes acc r.addr r.data) m

/-- The target memory after preverify filtering, erase and program but
before verify. -/
def programmedMem (m : Nat → Nat) (ranges : List Range)
    (preverify chipErase : Bool) : Nat → Nat :=
  programPhase (erasePhase m chipErase (preverifyFilter m preverify ranges))
    (preverifyFilter m preverify ranges)

/-- Modelled from the spec: the flash programming pipeline (spec section
4.6; header lines 152–168).  Steps: parse (the parsed ranges are the
input; ELF/HEX/BIN parsing is an external format concern), preverify
filter, erase, program, then — if `verify` is set — one read-back of every
originally-requested range, failing the whole call with `VerifyFailed` on
any mismatch, with no automatic retry (spec section 7: "No automatic
retries are performed by this layer").  `tamper` models any external
change to the target between program and verify (identity for a fault-free
target).  Returns the pipeline verdict and the final target memory. -/
def flashPipeline (m : Nat → Nat) (ranges : List Range)
    (verify preverify chipErase : Bool) (tamper : (Nat → Nat) → Nat → Nat) :
    Except PrError Unit × (Nat → Nat) :=
  let m2 := tamper (programmedMem m ranges preverify chipErase)
  if verify then
    if ranges.all (fun r => readBytes m2 r.addr r.data.length == r.data) then
      (Except.ok (), m2)
    else (Except.error PrError.verifyFailed, m2)
  else (Except.ok (), m2)

/-- Modelled from the spec: `pr_flash_elf` (header lines 152–164).  The
ELF file is parsed into (address, bytes) ranges by an external loader;
the entry point returns 0 on success and the negative error code on
failure, recording the diagnostic in the last-error slot. -/
def pr_flash_elf (st : LibState) (m : Nat → Nat) (parsedRanges : List Range)
    (verify preverify chipErase : Bool)
    (tamper : (Nat → Nat) → Nat → Nat) : Int × (Nat → Nat) × LibState :=
  match flashPipeline m parsedRanges verify preverify chipErase tamper with
  | (Except.ok _, m2) => (0, m2, st)
  | (Except.error e, m2) => (e.code, m2, setErr st e)

/-- Modelled from the spec: `pr_flash_hex` differs from `pr_flash_elf`
only in the external image parser (Intel-HEX embeds its own addressing);
the pipeline over the parsed ranges is identical. -/
def pr_flash_hex (st : LibState) (m : Nat → Nat) (parsedRanges : List Range)
    (verify preverify chipErase : Bool)
    (tamper : (Nat → Nat) → Nat → Nat) : Int × (Nat → Nat) × LibState :=
  pr_flash_elf st m parsedRanges verify preverify chipErase tamper

/-- Modelled from the spec: `pr_flash_bin` parses a raw binary as a single
range at `base_address` after dropping `skip` leading bytes (header line
166); the pipeline is then identical. -/
def pr_flash_bin (st : LibState) (m : Nat → Nat) (image : List Nat)
    (baseAddress skip : Nat) (verify preverify chipErase : Bool)
    (tamper : (Nat → Nat) → Nat → Nat) : Int × (Nat → Nat) × LibState :=
  pr_flash_elf st m [{ addr := baseAddress, data := image.drop skip }]
    verify preverify chipErase tamper

/-! ## C-string two-call convention -/

/-- The NUL terminator byte. -/
def nulChar : Char := Char.ofNat 0

/-- The observable outcome of one string-producing call: the size it
returns (required buffer size including the NUL terminator) and the bytes
it stores into the caller's buffer. -/
structure StrOut where
  size : Nat
  written : List Char
  deriving DecidableEq, Repr

/-- Modelled from the spec: the two-call string-buffer convention shared by
every string-producing query (spec section 6; header lines 9–19 and
183–198).  `bufLen = none` models a NULL buffer pointer.  The call always
returns the required size including the NUL terminator; with a usable
buffer it writes the string, truncated to fit, always NUL-terminated. -/
def cstringQuery (s : String) (bufLen : Option Nat) : StrOut :=
  let required := s.length + 1
  match bufLen with
  | none => ⟨required, []⟩
  | some 0 => ⟨required, []⟩
  | some n =>
      if required ≤ n then ⟨required, s.toList ++ [nulChar]⟩
      else ⟨required, s.toList.take (n - 1) ++ [nulChar]⟩

/-- Modelled from the spec: `pr_last_error` (header lines 9–13) — the
two-call query over the process-wide last-error slot. -/
def pr_last_error (st : LibState) (bufLen : Option Nat) : StrOut :=
  cstringQuery st.lastError bufLen

/-- The library version string; its concrete content is build metadata. -/
def versionString : String := "0.1.0"

/-- Modelled from the spec: `pr_version` (header lines 15–19) — the
two-call query over the library version string. -/
def pr_version (bufLen : Option Nat) : StrOut :=
  cstringQuery versionString bufLen

/-- A discovered probe snapshot (spec section 3, "Probe"): identifier,
vendor/product id, optional serial. -/
structure Probe where
  identifier : String
  vid : Nat
  pid : Nat
  serial : String

/-- Modelled from the spec: `pr_probe_info` (header lines 27–30) — for a
valid index, fills the identifier and serial buffers with the two-call
convention and reports vid/pid; an out-of-range index fails with
`NotFound`. -/
def pr_probe_info (probes : List Probe) (index : Nat)
    (idLen serialLen : Option Nat) :
    Int × (StrOut × Nat × Nat × StrOut) :=
  match probes[index]? with
  | none => (PrError.notFound.code, (⟨0, []⟩, 0, 0, ⟨0, []⟩))
  | some p =>
      (0, (cstringQuery p.identifier idLen, p.vid, p.pid,
           cstringQuery p.serial serialLen))

/-- Modelled from the spec: `pr_register_info` (header lines 100–103) —
for a valid enumeration index, reports (id, bit width) and fills the
register name buffer with the two-call convention. -/
def pr_register_info (st : LibState) (h i regIndex : Nat)
    (nameLen : Option Nat) : Int × (Nat × Nat × StrOut) :=
  match st.sessions h with
  | none => (PrError.invalidSession.code, (0, 0, ⟨0, []⟩))
  | some s =>
      if i < s.coreCount then
        match s.chip.registers[regIndex]? with
        | none => (PrError.notFound.code, (0, 0, ⟨0, []⟩))
        | some r => (0, (r.id, r.bitWidth, cstringQuery r.name nameLen))
      else (PrError.invalidCore.code, (0, 0, ⟨0, []⟩))

/-! ## Chip database queries -/

/-- The manufacturer list the index-based catalog queries run over:
distinct manufacturer names in catalog order (header lines 183–201). -/
def manufacturers (db : List ChipEntry) : List String :=
  (db.map (fun c => c.manufacturer)).dedup

/-- The models of the manufacturer at `manuIndex`, in catalog order. -/
def modelsOf (db : List ChipEntry) (manuIndex : Nat) : List ChipEntry :=
  match (manufacturers db)[manuIndex]? with
  | none => []
  | some m => db.filter (fun c => c.manufacturer == m)

/-- Modelled from the spec: `pr_chip_manufacturer_name` (header lines
199–200).  A `size_t`-returning string query: on a valid index it follows
the two-call convention; on an invalid index it returns 0 and sets the
last error (header: "On invalid index or name, functions return 0 and set
pr_last_error()"). -/
def pr_chip_manufacturer_name (db : List ChipEntry) (st : LibState)
    (index : Nat) (bufLen : Option Nat) : StrOut × LibState :=
  match (manufacturers db)[index]? with
  | none => (⟨0, []⟩, setErr st .notFound)
  | some m => (cstringQuery m bufLen, st)

/-- Modelled from the spec: `pr_chip_model_name` (header lines 201–202),
with the same size semantics as the manufacturer query. -/
def pr_chip_model_name (db : List ChipEntry) (st : LibState)
    (manuIndex chipIndex : Nat) (bufLen : Option Nat) : StrOut × LibState :=
  match (modelsOf db manuIndex)[chipIndex]? with
  | none => (⟨0, []⟩, setErr st .notFound)
  | some c => (cstringQuery c.model bufLen, st)

/-- Modelled from the spec: `pr_chip_model_specs` (header line 203) — the
JSON spec document for the chip at an index pair; returns 0 and sets the
last error on an invalid index. -/
def pr_chip_model_specs (db : List ChipEntry) (st : LibState)
    (manuIndex chipIndex : Nat) (bufLen : Option Nat) : StrOut × LibState :=
  match (modelsOf db manuIndex)[chipIndex]? with
  | none => (⟨0, []⟩, setErr st .notFound)
  | some c => (cstringQuery c.specsJson bufLen, st)

/-- Modelled from the spec: `pr_chip_specs_by_name` (header line 204) —
the JSON spec document for an exact chip name; returns 0 and sets the
last error on an unknown name. -/
def pr_chip_specs_by_name (db : List ChipEntry) (st : LibState)
    (name : String) (bufLen : Option Nat) : StrOut × LibState :=
  match findChip db name with
  | none => (⟨0, []⟩, setErr st .notFound)
  | some c => (cstringQuery c.specsJson bufLen, st)

/-! ## Programmer types -/

/-- Modelled from the spec: the canonical name of each programmer type code
of the `pr_programmer_type_t` enumeration (header lines 131–142); the enum
codes are the header's, the name spellings follow the spec's driver-type
tags (section 3). -/
def programmerTypeTable : List (Int × String) :=
  [ (0, "unknown")
  , (1, "cmsis-dap")
  , (2, "stlink")
  , (3, "jlink")
  , (4, "ftdi")
  , (5, "esp-usb-jtag")
  , (6, "wch-link")
  , (7, "sifli-uart")
  , (8, "glasgow")
  , (9, "ch347-usb-jtag") ]

/-- The canonical name of a programmer type code, when the code is a valid
member of the enumeration. -/
def programmerTypeName (code : Int) : Option String :=
  (programmerTypeTable.find? (fun p => p.1 == code)).map Prod.snd

/-- Modelled from the spec: `pr_programmer_type_is_supported_code` (header
line 147) — 1 for a supported programmer type, 0 otherwise; code 0
(`PR_PROG_UNKNOWN`) is not a programmer and is not supported. -/
def pr_programmer_type_is_supported_code (code : Int) : Int :=
  if code ≠ 0 ∧ (programmerTypeName code).isSome then 1 else 0

/-- Modelled from the spec: `pr_programmer_type_to_string` (header line
148) — a `size_t` string query over the canonical name; an invalid code
returns 0. -/
def pr_programmer_type_to_string (code : Int) (bufLen : Option Nat) :
    StrOut :=
  match programmerTypeName code with
  | none => ⟨0, []⟩
  | some s => cstringQuery s bufLen

/-- Modelled from the spec: `pr_programmer_type_from_string` (header line
149) — parses a canonical name back to its enumeration code, storing it
through `out_code`; an unknown name fails with `NotFound`. -/
def pr_programmer_type_from_string (name : String) : Int × Option Int :=
  match programmerTypeTable.find? (fun p => p.2 == name) with
  | none => (PrError.notFound.code, none)
  | some p => (0, some p.1)

/-! ## Specification vocabulary and concrete fixtures -/

/-- The two-call string-buffer convention as the spec states it (section
6): with a NULL buffer or a zero length the call returns the required
size including the NUL terminator and writes nothing; with a buffer of
`n > 0` bytes it still returns the required size and writes the string,
truncated to fit, with a trailing NUL terminator. -/
def TwoCall (call : Option Nat → StrOut) (s : String) : Prop :=
  call none = ⟨s.length + 1, []⟩ ∧
  call (some 0) = ⟨s.length + 1, []⟩ ∧
  ∀ n, 0 < n →
    call (some n) =
      ⟨s.length + 1, s.toList.take (min s.length (n - 1)) ++ [nulChar]⟩

/-- A concrete chip-catalog entry used to exercise the theorems on closed
inputs. -/
def chipExample : ChipEntry :=
  { manufacturer := "STMicroelectronics"
  , model := "stm32f407zet6"
  , coreCount := 1
  , registers :=
      [ { id := 0, bitWidth := 32, name := "R0", readOnly := false }
      , { id := 15, bitWidth := 32, name := "PC", readOnly := false }
      , { id := 100, bitWidth := 16, name := "HALF", readOnly := false }
      , { id := 200, bitWidth := 32, name := "MIDR", readOnly := true } ]
  , specsJson := "\x7b\x7d" }

/-- A one-entry concrete chip database. -/
def dbExample : List ChipEntry := [chipExample]

/-- The library state after opening a session against the example chip
(handle 1, one core, 4 breakpoint units). -/
def stOpen : LibState :=
  (pr_session_open_auto dbExample LibState.init "stm32f407zet6" 4).2

/-- A core sitting in the `Halted` state. -/
def coreHalted : CoreState :=
  { status := .halted, regs := fun _ => 0, mem := fun _ => 0
  , breakpoints := [], bpUnits := 4 }

/-- The opened example state with core 0 halted. -/
def stHalted : LibState := stOpen.setCore 1 0 coreHalted

/-- The session of `stHalted` as a standalone value. -/
def sessionHalted : SessionState :=
  { chip := chipExample
  , coreCount := chipExample.coreCount
  , core := fun j =>
      if j = 0 then coreHalted else (freshSession chipExample 4).core j }

/-- A concrete parsed firmware image: four bytes at `0x100`. -/
def flashRanges : List Range := [{ addr := 0x100, data := [1, 2, 3, 4] }]

/-- A simulated fault: one byte of the target flips between program and
verify. -/
def tamperFlip (m : Nat → Nat) : Nat → Nat :=
  fun x => if x = 0x102 then 0xAA else m x

/-! ## Helper lemmas -/

theorem PrError.code_neg (e : PrError) : e.code < 0 := by
  cases e <;> simp [PrError.code]

theorem LibState.init_wf : LibState.init.WF :=
  ⟨Nat.le_refl 1, fun _ _ => rfl⟩

/-! ## Claim theorems -/

/-- C1: opening a session (`pr_session_open_auto` or
`pr_session_open_with_probe`) with a chip name that does not resolve in
the chip database fails with `UnknownChip` and never allocates a Session
handle (it returns the reserved value zero and leaves the session arena
untouched); every successful open returns a non-zero handle. -/
theorem session_open_unknown_chip_and_nonzero_handle
    (db : List ChipEntry) (st : LibState) (sel chip : String) (units : Nat)
    (hwf : st.WF) :
    (findChip db chip = none →
        pr_session_open_auto db st chip units =
          (0, setErr st .unknownChip) ∧
        pr_session_open_with_probe db st sel chip units =
          (0, setErr st .unknownChip) ∧
        (pr_session_open_auto db st chip units).2.sessions = st.sessions) ∧
    (findChip db chip ≠ none →
        (pr_session_open_auto db st chip units).1 ≠ 0 ∧
        (pr_session_open_with_probe db st sel chip units).1 ≠ 0) := by
  constructor
  · intro hnone
    simp [pr_session_open_auto, pr_session_open_with_probe, hnone, setErr]
  · intro hsome
    rcases Option.ne_none_iff_exists'.mp hsome with ⟨c, hc⟩
    have h1 : 1 ≤ st.nextHandle := hwf.1
    simp [pr_session_open_auto, pr_session_open_with_probe, hc]
    omega

/-- C1 witness: on the concrete database, an unknown name fails with
handle 0 and no allocation, and a resolving name yields a non-zero
handle. -/
theorem session_open_witness :
    LibState.init.WF ∧
    pr_session_open_auto dbExample LibState.init "nonexistent-chip" 4 =
      (0, setErr LibState.init .unknownChip) ∧
    (pr_session_open_auto dbExample LibState.init "stm32f407zet6" 4).1 ≠ 0 := by
  refine ⟨LibState.init_wf, ?_, ?_⟩
  · exact ((session_open_unknown_chip_and_nonzero_handle dbExample
      LibState.init "x" "nonexistent-chip" 4 LibState.init_wf).1 (by decide)).1
  · exact ((session_open_unknown_chip_and_nonzero_handle dbExample
      LibState.init "x" "stm32f407zet6" 4 LibState.init_wf).2 (by decide)).1

/-- C9: on a valid session and an in-range core index `pr_core_status`
returns exactly one of 0 (Unknown), 1 (Halted) or 2 (Running), and every
failure is reported as a negative value — no other non-negative value is
ever returned. -/
theorem core_status_three_values (st : LibState) (h i : Nat) :
    ((pr_core_status st h i).1 < 0 ∨ (pr_core_status st h i).1 = 0 ∨
      (pr_core_status st h i).1 = 1 ∨ (pr_core_status st h i).1 = 2) ∧
    (∀ s, st.sessions h = some s → i < s.coreCount →
      (pr_core_status st h i).1 = 0 ∨ (pr_core_status st h i).1 = 1 ∨
      (pr_core_status st h i).1 = 2) := by
  unfold pr_core_status
  cases hs : st.sessions h with
  | none => simp [PrError.code]
  | some s =>
      by_cases hi : i < s.coreCount
      · simp only [hi, if_true]
        cases hstat : (s.core i).status <;> simp [CoreStatus.toCode]
      · simp only [hi, if_false]
        constructor
        · left; exact PrError.code_neg _
        · intro s2 hs2 hi2
          rw [Option.some_inj] at hs2
          subst hs2
          exact absurd hi2 hi

/-- C9 witness: on the freshly opened concrete session, core 0 reports one
of the three defined status codes. -/
theorem core_status_witness :
    stOpen.sessions 1 = some (freshSession chipExample 4) ∧
    0 < (freshSession chipExample 4).coreCount ∧
    ((pr_core_status stOpen 1 0).1 = 0 ∨ (pr_core_status stOpen 1 0).1 = 1 ∨
      (pr_core_status stOpen 1 0).1 = 2) :=
  ⟨rfl, by decide,
   (core_status_three_values stOpen 1 0).2 (freshSession chipExample 4)
     rfl (by decide)⟩

/-- C5: `pr_core_step` succeeds only when the addressed core is `Halted`;
after a successful step — the one executed instruction's hardware effect
being `exec` — the core's status is `Halted` again; if the core is not
`Halted` the call fails with `InvalidState`. -/
theorem core_step_halted_semantics (exec : CoreState → CoreState)
    (st : LibState) (h i : Nat) (s : SessionState)
    (hs : st.sessions h = some s) (hi : i < s.coreCount) :
    ((s.core i).status = .halted →
        (pr_core_step exec st h i).1 = 0 ∧
        ((pr_core_step exec st h i).2.coreAt h i).map CoreState.status =
          some CoreStatus.halted) ∧
    ((s.core i).status ≠ .halted →
        pr_core_step exec st h i =
          (PrError.invalidState.code, setErr st .invalidState)) ∧
    ((pr_core_step exec st h i).1 = 0 → (s.core i).status = .halted) := by
  unfold pr_core_step
  rw [hs]
  simp only [hi, if_true]
  by_cases hstat : (s.core i).status = .halted
  · rw [if_pos hstat]
    refine ⟨fun _ => ⟨rfl, ?_⟩, fun hne => absurd hstat hne, fun _ => hstat⟩
    simp [LibState.coreAt, LibState.setCore, hs, hi]
  · rw [if_neg hstat]
    refine ⟨fun heq => absurd heq hstat, fun _ => rfl, fun h0 => ?_⟩
    simp [PrError.code] at h0

/-- C5 witness: stepping the halted concrete core succeeds and leaves it
halted; the freshly opened core (status `Unknown`) fails with
`InvalidState`. -/
theorem core_step_witness :
    stHalted.sessions 1 = some sessionHalted ∧
    0 < sessionHalted.coreCount ∧
    (sessionHalted.core 0).status = .halted ∧
    (pr_core_step id stHalted 1 0).1 = 0 ∧
    ((pr_core_step id stHalted 1 0).2.coreAt 1 0).map CoreState.status =
      some CoreStatus.halted ∧
    pr_core_step id stOpen 1 0 =
      (PrError.invalidState.code, setErr stOpen .invalidState) := by
  have H := core_step_halted_semantics id stHalted 1 0 sessionHalted rfl
    (by decide)
  have H2 := core_step_halted_semantics id stOpen 1 0
    (freshSession chipExample 4) rfl (by decide)
  exact ⟨rfl, by decide, by decide, (H.1 (by decide)).1, (H.1 (by decide)).2,
    H2.2.1 (by decide)⟩

/-- C3: for a register of the core's register file with bit width `w`
that is not read-only, `pr_write_reg_u64` of `v` succeeds and a following
`pr_read_reg_u64` succeeds and yields `v` masked to the low `w` bits
(writes truncate to the low bits, reads zero-extend). -/
theorem register_roundtrip (st : LibState) (h i id v : Nat)
    (s : SessionState) (r : RegisterInfo)
    (hs : st.sessions h = some s) (hi : i < s.coreCount)
    (hr : findReg s.chip.registers id = some r) (hro : r.readOnly = false) :
    (pr_write_reg_u64 st h i id v).1 = 0 ∧
    pr_read_reg_u64 (pr_write_reg_u64 st h i id v).2 h i id =
      (0, v % 2 ^ r.bitWidth, (pr_write_reg_u64 st h i id v).2) := by
  have hw : pr_write_reg_u64 st h i id v =
      (0, st.setCore h i
            { s.core i with regs := fun j =>
                if j = id then v % 2 ^ r.bitWidth else (s.core i).regs j }) := by
    unfold pr_write_reg_u64
    rw [hs]
    simp [hi, hr, hro]
  rw [hw]
  refine ⟨rfl, ?_⟩
  unfold pr_read_reg_u64
  simp [LibState.setCore, hs, hi, hr, Nat.mod_mod_of_dvd]

/-- C3 witness: on the concrete 16-bit register (id 100), writing 70000
then reading yields `70000 % 2^16`. -/
theorem register_roundtrip_witness :
    stOpen.sessions 1 = some (freshSession chipExample 4) ∧
    0 < (freshSession chipExample 4).coreCount ∧
    findReg (freshSession chipExample 4).chip.registers 100 =
      some { id := 100, bitWidth := 16, name := "HALF", readOnly := false } ∧
    (pr_write_reg_u64 stOpen 1 0 100 70000).1 = 0 ∧
    pr_read_reg_u64 (pr_write_reg_u64 stOpen 1 0 100 70000).2 1 0 100 =
      (0, 70000 % 2 ^ 16, (pr_write_reg_u64 stOpen 1 0 100 70000).2) := by
  have H := register_roundtrip stOpen 1 0 100 70000
    (freshSession chipExample 4)
    { id := 100, bitWidth := 16, name := "HALF", readOnly := false }
    rfl (by decide) (by decide) rfl
  exact ⟨rfl, by decide, by decide, H.1, H.2⟩

theorem readBytes_length (m : Nat → Nat) (a n : Nat) :
    (readBytes m a n).length = n := by
  simp [readBytes]

theorem readBytes_writeBytes (m : Nat → Nat) (a : Nat) (buf : List Nat)
    (hb : ∀ b ∈ buf, b < 256) :
    readBytes (writeBytes m a buf) a buf.length = buf := by
  apply List.ext_getElem
  · simp [readBytes]
  · intro j h1 h2
    have hj : j < buf.length := h2
    simp only [readBytes, writeBytes, List.getElem_map, List.getElem_range]
    rw [if_pos ⟨Nat.le_add_right a j, by omega⟩]
    have hrw : a + j - a = j := by omega
    rw [hrw, List.getD_eq_getElem buf 0 hj]
    exact Nat.mod_eq_of_lt (hb _ (List.getElem_mem hj))

/-- C4: on a valid session and core, a successful `pr_write_8` of a byte
buffer at address `a` followed by `pr_read_8` of the same length at `a`
returns exactly the same bytes (any length, aligned or unaligned
address). -/
theorem memory_roundtrip (st : LibState) (h i a : Nat) (buf : List Nat)
    (s : SessionState) (hs : st.sessions h = some s) (hi : i < s.coreCount)
    (hov : a + buf.length ≤ addressSpace) (hb : ∀ b ∈ buf, b < 256) :
    (pr_write_8 st h i a buf).1 = 0 ∧
    pr_read_8 (pr_write_8 st h i a buf).2 h i a buf.length =
      (0, buf, (pr_write_8 st h i a buf).2) := by
  have hw : pr_write_8 st h i a buf =
      (0, st.setCore h i
            { s.core i with mem := writeBytes (s.core i).mem a buf }) := by
    unfold pr_write_8
    rw [hs]
    simp [hi, hov]
  rw [hw]
  refine ⟨rfl, ?_⟩
  unfold pr_read_8
  simp [LibState.setCore, hs, hi, hov, readBytes_writeBytes _ _ _ hb]

/-- C4 witness: a 4-byte buffer written at the unaligned address
`0x20000001` reads back identically. -/
theorem memory_roundtrip_witness :
    stOpen.sessions 1 = some (freshSession chipExample 4) ∧
    0 < (freshSession chipExample 4).coreCount ∧
    0x20000001 + 4 ≤ addressSpace ∧
    (∀ b ∈ [1, 2, 3, 250], b < 256) ∧
    (pr_write_8 stOpen 1 0 0x20000001 [1, 2, 3, 250]).1 = 0 ∧
    pr_read_8 (pr_write_8 stOpen 1 0 0x20000001 [1, 2, 3, 250]).2 1 0
        0x20000001 4 =
      (0, [1, 2, 3, 250], (pr_write_8 stOpen 1 0 0x20000001 [1, 2, 3, 250]).2) := by
  have H := memory_roundtrip stOpen 1 0 0x20000001 [1, 2, 3, 250]
    (freshSession chipExample 4) rfl (by decide) (by decide) (by decide)
  exact ⟨rfl, by decide, by decide, by decide, H.1, H.2⟩

/-- C6: setting the same hardware breakpoint address twice in a row
succeeds both times, the second call being an exact no-op, and the two
calls together consume exactly one comparator unit when the address was
fresh (none when it was already set); clearing an address that was never
set succeeds as a no-op. -/
theorem breakpoint_idempotent_and_clear_noop (st : LibState)
    (h i addr : Nat) (s : SessionState)
    (hs : st.sessions h = some s) (hi : i < s.coreCount) :
    ((s.core i).breakpoints.length < (s.core i).bpUnits ∨
        addr ∈ (s.core i).breakpoints →
      (pr_set_hw_breakpoint st h i addr).1 = 0 ∧
      pr_set_hw_breakpoint (pr_set_hw_breakpoint st h i addr).2 h i addr =
        (0, (pr_set_hw_breakpoint st h i addr).2) ∧
      ((pr_set_hw_breakpoint (pr_set_hw_breakpoint st h i addr).2 h i
            addr).2.coreAt h i).map (fun c => c.breakpoints.length) =
        some (if addr ∈ (s.core i).breakpoints then
                (s.core i).breakpoints.length
              else (s.core i).breakpoints.length + 1)) ∧
    (addr ∉ (s.core i).breakpoints →
      pr_clear_hw_breakpoint st h i addr = (0, st)) := by
  constructor
  · intro hfree
    by_cases hmem : addr ∈ (s.core i).breakpoints
    · have h1 : pr_set_hw_breakpoint st h i addr = (0, st) := by
        unfold pr_set_hw_breakpoint
        rw [hs]
        simp [hi, hmem]
      have hfst : (pr_set_hw_breakpoint st h i addr).2 = st := by rw [h1]
      rw [hfst]
      refine ⟨by rw [h1], h1, ?_⟩
      rw [h1]
      simp [LibState.coreAt, hs, hi, hmem]
    · have hlt : (s.core i).breakpoints.length < (s.core i).bpUnits := by
        rcases hfree with hfree | hfree
        · exact hfree
        · exact absurd hfree hmem
      have h1 : pr_set_hw_breakpoint st h i addr =
          (0, st.setCore h i
                { s.core i with
                    breakpoints := addr :: (s.core i).breakpoints }) := by
        unfold pr_set_hw_breakpoint
        rw [hs]
        simp [hi, hmem, hlt]
      have h2 : pr_set_hw_breakpoint (pr_set_hw_breakpoint st h i addr).2
          h i addr = (0, (pr_set_hw_breakpoint st h i addr).2) := by
        rw [h1]
        unfold pr_set_hw_breakpoint
        simp [LibState.setCore, hs, hi]
      refine ⟨by rw [h1], h2, ?_⟩
      rw [h2, h1]
      simp [LibState.coreAt, LibState.setCore, hs, hi, hmem]
  · intro hmem
    unfold pr_clear_hw_breakpoint
    rw [hs]
    simp [hi, hmem]

/-- C6 witness: on the freshly opened concrete session (4 free units),
setting address `0x08000004` twice succeeds both times and consumes one
unit; clearing the never-set address `0x0800000C` is a no-op success. -/
theorem breakpoint_witness :
    stOpen.sessions 1 = some (freshSession chipExample 4) ∧
    0 < (freshSession chipExample 4).coreCount ∧
    (((freshSession chipExample 4).core 0).breakpoints.length <
      ((freshSession chipExample 4).core 0).bpUnits ∨
      0x08000004 ∈ ((freshSession chipExample 4).core 0).breakpoints) ∧
    (pr_set_hw_breakpoint stOpen 1 0 0x08000004).1 = 0 ∧
    pr_set_hw_breakpoint (pr_set_hw_breakpoint stOpen 1 0 0x08000004).2 1 0
        0x08000004 = (0, (pr_set_hw_breakpoint stOpen 1 0 0x08000004).2) ∧
    ((pr_set_hw_breakpoint (pr_set_hw_breakpoint stOpen 1 0 0x08000004).2 1 0
        0x08000004).2.coreAt 1 0).map (fun c => c.breakpoints.length) =
      some 1 ∧
    pr_clear_hw_breakpoint stOpen 1 0 0x0800000C = (0, stOpen) := by
  have H := breakpoint_idempotent_and_clear_noop stOpen 1 0 0x08000004
    (freshSession chipExample 4) rfl (by decide)
  have H2 := breakpoint_idempotent_and_clear_noop stOpen 1 0 0x0800000C
    (freshSession chipExample 4) rfl (by decide)
  have hfree : ((freshSession chipExample 4).core 0).breakpoints.length <
      ((freshSession chipExample 4).core 0).bpUnits ∨
      0x08000004 ∈ ((freshSession chipExample 4).core 0).breakpoints := by
    left; decide
  have Hset := H.1 hfree
  refine ⟨rfl, by decide, hfree, Hset.1, Hset.2.1, ?_, H2.2 (by decide)⟩
  rw [Hset.2.2]
  decide

/-- C2: with `verify` set, the flash pipeline reads back every
originally-requested range — not only the ranges left after the preverify
filter — exactly once, on the final (possibly tampered) target memory: the
call succeeds iff every original range matches the image, any mismatch
fails the whole call with `VerifyFailed`, the target memory is not touched
again after the verdict (no automatic retry), and the C entry point
`pr_flash_elf` reports this verdict as its status. -/
theorem flash_verify_all_original_ranges (st : LibState) (m : Nat → Nat)
    (ranges : List Range) (preverify chipErase : Bool)
    (tamper : (Nat → Nat) → Nat → Nat) :
    (flashPipeline m ranges true preverify chipErase tamper).2 =
      tamper (programmedMem m ranges preverify chipErase) ∧
    ((flashPipeline m ranges true preverify chipErase tamper).1 =
        Except.ok () ↔
      ∀ r ∈ ranges,
        readBytes (tamper (programmedMem m ranges preverify chipErase))
          r.addr r.data.length = r.data) ∧
    ((flashPipeline m ranges true preverify chipErase tamper).1 ≠
        Except.ok () →
      (flashPipeline m ranges true preverify chipErase tamper).1 =
        Except.error PrError.verifyFailed) ∧
    ((pr_flash_elf st m ranges true preverify chipErase tamper).1 = 0 ↔
      ∀ r ∈ ranges,
        readBytes (tamper (programmedMem m ranges preverify chipErase))
          r.addr r.data.length = r.data) := by
  unfold pr_flash_elf flashPipeline
  by_cases hall : ∀ r ∈ ranges,
      readBytes (tamper (programmedMem m ranges preverify chipErase))
        r.addr r.data.length = r.data
  · have hb : ranges.all (fun r =>
        readBytes (tamper (programmedMem m ranges preverify chipErase))
          r.addr r.data.length == r.data) = true := by
      rw [List.all_eq_true]
      intro r hr
      exact beq_iff_eq.mpr (hall r hr)
    simp [hb]
    all_goals exact hall
  · have hb : ranges.all (fun r =>
        readBytes (tamper (programmedMem m ranges preverify chipErase))
          r.addr r.data.length == r.data) = false := by
      rw [Bool.eq_false_iff]
      intro hcon
      rw [List.all_eq_true] at hcon
      exact hall (fun r hr => beq_iff_eq.mp (hcon r hr))
    simp [hb, hall, PrError.code]

/-- C2 witness: flashing a 4-byte image with `verify` and `chip_erase` set
on a fault-free simulated target verifies successfully; flipping one
target byte between program and verify yields `VerifyFailed`, and
`pr_flash_elf` reports the corresponding statuses. -/
theorem flash_verify_witness :
    (flashPipeline (fun _ => 0) flashRanges true false true id).1 =
      Except.ok () ∧
    (flashPipeline (fun _ => 0) flashRanges true false true tamperFlip).1 =
      Except.error PrError.verifyFailed ∧
    (pr_flash_elf LibState.init (fun _ => 0) flashRanges true false true
        id).1 = 0 ∧
    (pr_flash_elf LibState.init (fun _ => 0) flashRanges true false true
        tamperFlip).1 = PrError.verifyFailed.code := by
  have Hok := flash_verify_all_original_ranges LibState.init (fun _ => 0)
    flashRanges false true id
  have Hbad := flash_verify_all_original_ranges LibState.init (fun _ => 0)
    flashRanges false true tamperFlip
  have hmatch : ∀ r ∈ flashRanges,
      readBytes (id (programmedMem (fun _ => 0) flashRanges false true))
        r.addr r.data.length = r.data := by decide
  have hmismatch : ¬ ∀ r ∈ flashRanges,
      readBytes (tamperFlip (programmedMem (fun _ => 0) flashRanges false
        true)) r.addr r.data.length = r.data := by decide
  refine ⟨Hok.2.1.mpr hmatch, ?_, Hok.2.2.2.mpr hmatch, ?_⟩
  · exact Hbad.2.2.1 (fun hok => hmismatch (Hbad.2.1.mp hok))
  · have hne := Hbad.2.2.1 (fun hok => hmismatch (Hbad.2.1.mp hok))
    have hpair : flashPipeline (fun _ => 0) flashRanges true false true
        tamperFlip =
        (Except.error PrError.verifyFailed,
         tamperFlip (programmedMem (fun _ => 0) flashRanges false true)) :=
      Prod.ext_iff.mpr ⟨hne, Hbad.1⟩
    unfold pr_flash_elf
    rw [hpair]

theorem cstringQuery_twoCall (s : String) : TwoCall (cstringQuery s) s := by
  refine ⟨rfl, rfl, ?_⟩
  intro n hn
  match n, hn with
  | Nat.succ k, _ =>
      show (if s.length + 1 ≤ k + 1 then
              (⟨s.length + 1, s.toList ++ [nulChar]⟩ : StrOut)
            else ⟨s.length + 1, s.toList.take (k + 1 - 1) ++ [nulChar]⟩) = _
      have hlen : s.toList.length = s.length := rfl
      by_cases hle : s.length + 1 ≤ k + 1
      · rw [if_pos hle]
        have hmin : min s.length (k + 1 - 1) = s.length := by omega
        rw [hmin]
        have : s.toList.take s.length = s.toList := by
          rw [← hlen]
          exact List.take_length s.toList
        rw [this]
      · rw [if_neg hle]
        have hmin : min s.length (k + 1 - 1) = k + 1 - 1 := by omega
        rw [hmin]

/-- C7: every string-producing query — `pr_last_error`, `pr_version`, the
probe identifier and serial, the manufacturer and model names, the
register name, and the chip-spec JSON by index pair or by name — follows
the two-call convention: with a NULL buffer or zero length it returns the
required size including the NUL terminator, and with a buffer it writes
the string up to that size. -/
theorem string_queries_two_call (st : LibState) (db : List ChipEntry)
    (probes : List Probe) (other : Option Nat) :
    TwoCall (pr_last_error st) st.lastError ∧
    TwoCall pr_version versionString ∧
    (∀ idx p, probes[idx]? = some p →
      TwoCall (fun b => (pr_probe_info probes idx b other).2.1)
        p.identifier ∧
      TwoCall (fun b => (pr_probe_info probes idx other b).2.2.2.2)
        p.serial) ∧
    (∀ h i ri s r, st.sessions h = some s → i < s.coreCount →
      s.chip.registers[ri]? = some r →
      TwoCall (fun b => (pr_register_info st h i ri b).2.2.2) r.name) ∧
    (∀ idx mname, (manufacturers db)[idx]? = some mname →
      TwoCall (fun b => (pr_chip_manufacturer_name db st idx b).1) mname) ∧
    (∀ mi ci c, (modelsOf db mi)[ci]? = some c →
      TwoCall (fun b => (pr_chip_model_name db st mi ci b).1) c.model ∧
      TwoCall (fun b => (pr_chip_model_specs db st mi ci b).1)
        c.specsJson) ∧
    (∀ nm c, findChip db nm = some c →
      TwoCall (fun b => (pr_chip_specs_by_name db st nm b).1) c.specsJson) := by
  refine ⟨cstringQuery_twoCall _, cstringQuery_twoCall _, ?_, ?_, ?_, ?_, ?_⟩
  · intro idx p hp
    constructor
    · simpa [pr_probe_info, hp] using cstringQuery_twoCall p.identifier
    · simpa [pr_probe_info, hp] using cstringQuery_twoCall p.serial
  · intro h i ri s r hs hi hr
    simpa [pr_register_info, hs, hi, hr] using cstringQuery_twoCall r.name
  · intro idx mname hm
    simpa [pr_chip_manufacturer_name, hm] using cstringQuery_twoCall mname
  · intro mi ci c hc
    constructor
    · simpa [pr_chip_model_name, hc] using cstringQuery_twoCall c.model
    · simpa [pr_chip_model_specs, hc] using cstringQuery_twoCall c.specsJson
  · intro nm c hc
    simpa [pr_chip_specs_by_name, hc] using cstringQuery_twoCall c.specsJson

/-- C7 witness: the convention, instantiated on the concrete database and
a concrete probe list, for the manufacturer-name and chip-spec queries
and for `pr_last_error` and `pr_version`. -/
theorem string_queries_witness :
    (manufacturers dbExample)[0]? = some "STMicroelectronics" ∧
    findChip dbExample "stm32f407zet6" = some chipExample ∧
    TwoCall (pr_last_error LibState.init) LibState.init.lastError ∧
    TwoCall pr_version versionString ∧
    TwoCall (fun b => (pr_chip_manufacturer_name dbExample LibState.init 0
        b).1) "STMicroelectronics" ∧
    TwoCall (fun b => (pr_chip_specs_by_name dbExample LibState.init
        "stm32f407zet6" b).1) chipExample.specsJson := by
  have H := string_queries_two_call LibState.init dbExample [] none
  exact ⟨by decide, by decide, H.1, H.2.1,
    H.2.2.2.2.1 0 "STMicroelectronics" (by decide),
    H.2.2.2.2.2.2 "stm32f407zet6" chipExample (by decide)⟩

/-- C8 counterexample: the chip-database query `pr_chip_model_specs`,
called with an invalid manufacturer index, fails — it records `NotFound`
in the last-error slot, retrievable via `pr_last_error` — yet returns 0,
a value the claim reads as success; per the header it returns an unsigned
`size_t` and can never return a negative value, so the claimed
negative-on-failure convention does not hold for the chip-database string
queries. -/
theorem status_code_counterexample :
    (pr_chip_model_specs dbExample LibState.init 1 0 none).1.size = 0 ∧
    (pr_chip_model_specs dbExample LibState.init 1 0 none).2.lastError =
      PrError.notFound.message ∧
    (pr_last_error
        (pr_chip_model_specs dbExample LibState.init 1 0 none).2
        (some 9)).written = "NotFound".toList ++ [nulChar] := by
  refine ⟨by decide, by decide, by decide⟩

/-- C8 (amended): the operations returning a signed `int32_t` status —
the flash entry points, memory writes, core-status queries — return 0 (or
a non-negative carried value) on success and a negative error code on
failure, with the diagnostic recorded for `pr_last_error`; the
chip-database string queries instead return an unsigned required-size,
signalling failure by returning 0 and recording the diagnostic. -/
theorem status_code_convention (st : LibState) (m : Nat → Nat)
    (ranges : List Range) (v pv ce : Bool)
    (tamper : (Nat → Nat) → Nat → Nat) (db : List ChipEntry)
    (mi ci h i a : Nat) (b : Option Nat) (buf : List Nat) :
    ((pr_flash_elf st m ranges v pv ce tamper).1 = 0 ∨
      ∃ e : PrError, (pr_flash_elf st m ranges v pv ce tamper).1 = e.code ∧
        e.code < 0 ∧
        (pr_flash_elf st m ranges v pv ce tamper).2.2.lastError =
          e.message) ∧
    ((pr_write_8 st h i a buf).1 = 0 ∨
      ∃ e : PrError, (pr_write_8 st h i a buf).1 = e.code ∧ e.code < 0 ∧
        (pr_write_8 st h i a buf).2.lastError = e.message) ∧
    (0 ≤ (pr_core_status st h i).1 ∨
      ∃ e : PrError, (pr_core_status st h i).1 = e.code ∧ e.code < 0 ∧
        (pr_core_status st h i).2.lastError = e.message) ∧
    ((modelsOf db mi)[ci]? = none →
      pr_chip_model_specs db st mi ci b = (⟨0, []⟩, setErr st .notFound)) ∧
    (∀ c, (modelsOf db mi)[ci]? = some c →
      1 ≤ (pr_chip_model_specs db st mi ci b).1.size) := by
  refine ⟨?_, ?_, ?_, ?_, ?_⟩
  · unfold pr_flash_elf
    cases hf : flashPipeline m ranges v pv ce tamper with
    | mk fst snd =>
        cases fst with
        | ok u => left; rfl
        | error e => right; exact ⟨e, rfl, PrError.code_neg e, rfl⟩
  · unfold pr_write_8
    cases hsess : st.sessions h with
    | none => right; exact ⟨.invalidSession, rfl, PrError.code_neg _, rfl⟩
    | some s =>
        by_cases hi2 : i < s.coreCount
        · by_cases hov : a + buf.length ≤ addressSpace
          · left; simp [hi2, hov]
          · right
            refine ⟨.accessFault, ?_, PrError.code_neg _, ?_⟩ <;>
              simp [hi2, hov, setErr]
        · right
          refine ⟨.invalidCore, ?_, PrError.code_neg _, ?_⟩ <;>
            simp [hi2, setErr]
  · unfold pr_core_status
    cases hsess : st.sessions h with
    | none => right; exact ⟨.invalidSession, rfl, PrError.code_neg _, rfl⟩
    | some s =>
        by_cases hi2 : i < s.coreCount
        · left
          simp only [hi2, if_true]
          cases (s.core i).status <;> simp [CoreStatus.toCode]
        · right
          refine ⟨.invalidCore, ?_, PrError.code_neg _, ?_⟩ <;>
            simp [hi2, setErr]
  · intro hnone
    unfold pr_chip_model_specs
    rw [hnone]
  · intro c hc
    unfold pr_chip_model_specs
    rw [hc]
    cases b with
    | none => exact Nat.le_add_left 1 _
    | some n =>
        cases n with
        | zero => exact Nat.le_add_left 1 _
        | succ k =>
            show 1 ≤ (if c.specsJson.length + 1 ≤ k + 1 then _ else _ :
              StrOut).size
            by_cases hle : c.specsJson.length + 1 ≤ k + 1
            · rw [if_pos hle]; exact Nat.le_add_left 1 _
            · rw [if_neg hle]; exact Nat.le_add_left 1 _

/-- C8 witness for the amended claim: the convention at concrete inputs —
a successful flash call returns 0, a write to an invalid session returns
a negative code with its diagnostic, and a valid chip-spec query returns
a positive required size. -/
theorem status_code_witness :
    ((pr_flash_elf LibState.init (fun _ => 0) flashRanges true false true
        id).1 = 0 ∨
      ∃ e : PrError, (pr_flash_elf LibState.init (fun _ => 0) flashRanges
          true false true id).1 = e.code ∧ e.code < 0 ∧
        (pr_flash_elf LibState.init (fun _ => 0) flashRanges true false
          true id).2.2.lastError = e.message) ∧
    ((pr_write_8 LibState.init 7 0 0 [1]).1 = 0 ∨
      ∃ e : PrError, (pr_write_8 LibState.init 7 0 0 [1]).1 = e.code ∧
        e.code < 0 ∧
        (pr_write_8 LibState.init 7 0 0 [1]).2.lastError = e.message) ∧
    ((modelsOf dbExample 0)[0]? = some chipExample →
      1 ≤ (pr_chip_model_specs dbExample LibState.init 0 0 none).1.size) := by
  have H := status_code_convention LibState.init (fun _ => 0) flashRanges
    true false true id dbExample 0 0 7 0 0 none [1]
  exact ⟨H.1, H.2.1, fun hc => H.2.2.2.2 chipExample hc⟩

/-- C10: for every supported programmer type code `c` of the
`pr_programmer_type_t` enumeration, `pr_programmer_type_to_string`
produces the type's canonical name via the string-buffer convention, and
`pr_programmer_type_from_string` parses that name back, succeeding (status
0) with the same code `c`. -/
theorem programmer_type_string_roundtrip (c : Int) (s : String)
    (hsup : pr_programmer_type_is_supported_code c = 1)
    (hname : programmerTypeName c = some s) :
    (∀ b, pr_programmer_type_to_string c b = cstringQuery s b) ∧
    pr_programmer_type_from_string s = (0, some c) := by
  cases hfind : programmerTypeTable.find? (fun p => p.1 == c) with
  | none =>
      rw [programmerTypeName, hfind] at hname
      simp at hname
  | some p =>
      have hp := List.mem_of_find?_eq_some hfind
      have hpc : p.1 = c := by
        have := List.find?_some hfind
        simpa using this
      have hps : p.2 = s := by
        rw [programmerTypeName, hfind] at hname
        simpa using hname
      have hto : ∀ b, pr_programmer_type_to_string c b = cstringQuery s b := by
        intro b
        rw [pr_programmer_type_to_string, hname]
      refine ⟨hto, ?_⟩
      subst hpc
      subst hps
      simp only [programmerTypeTable, List.mem_cons, List.not_mem_nil,
        or_false] at hp
      rcases hp with hp | hp | hp | hp | hp | hp | hp | hp | hp | hp <;>
        subst hp <;> first
          | (exact absurd hsup (by decide))
          | decide

/-- C10 witness: code 3 (`PR_PROG_JLINK`) is supported, its name is
`jlink`, converting produces that name and parsing it back yields code 3
with status 0. -/
theorem programmer_type_roundtrip_witness :
    pr_programmer_type_is_supported_code 3 = 1 ∧
    programmerTypeName 3 = some "jlink" ∧
    pr_programmer_type_to_string 3 none = cstringQuery "jlink" none ∧
    pr_programmer_type_from_string "jlink" = (0, some 3) := by
  have H := programmer_type_string_roundtrip 3 "jlink" (by decide) (by decide)
  exact ⟨by decide, by decide, H.1 none, H.2⟩

end ProbeRs
